import Mathlib

/-!
Shallow embedding of the zdslite query compiler (the `DSLite` class in
`src/index.ts`): identifier validation, field-reference lowering, the
recursive clause compiler, the boolean combinator, join/source/sort
lowering, and the search/aggregate statement assemblers.

Conventions of the embedding:
* JavaScript exceptions become `Except DSLiteError`.
* SQL parameter values are modelled by `SqlValue`.
* JavaScript objects whose key order matters (range operator maps, metric
  maps, sort descriptors) are modelled as association lists in insertion
  order, matching `Object.entries` iteration order.
* Optional / possibly-absent JS values are modelled with `Option`; the JS
  falsiness checks on strings and numbers (`""` and `0` are falsy) are
  written out explicitly where the source relies on them.
-/

/-- A value bound as a SQL parameter (string, number, or null). -/
inductive SqlValue where
  | str (s : String)
  | int (n : Int)
  | nil
deriving DecidableEq, Repr

/-- The `SqlResult` pairs produced by the clause compiler:
a SQL fragment plus its ordered parameter list. -/
structure SqlResult where
  sql : String
  params : List SqlValue
deriving DecidableEq, Repr

/-- Errors of `src/errors.ts`: `DSLiteValidationError` and `DSLiteQueryError`. -/
inductive DSLiteError where
  | validation (msg : String)
  | query (msg : String)
deriving DecidableEq, Repr

/-- One character of the class `[a-zA-Z0-9_]` from `SAFE_IDENTIFIER_REGEX`. -/
def isSafeIdentChar (c : Char) : Bool :=
  ('a' ≤ c && c ≤ 'z') || ('A' ≤ c && c ≤ 'Z') || ('0' ≤ c && c ≤ '9') || c == '_'

/-- `SAFE_IDENTIFIER_REGEX.test`: the regex `^[a-zA-Z0-9_]+$` holds of a
string iff it is non-empty and every character is in the class. -/
def safeIdentifierTest (s : String) : Bool :=
  !s.isEmpty && s.data.all isSafeIdentChar

/-- `DSLite._validateIdentifier`: returns unit on success, otherwise throws a
`DSLiteValidationError` naming the context and the offending identifier. -/
def validateIdentifier (identifier : String) (context : String) : Except DSLiteError Unit :=
  if safeIdentifierTest identifier then .ok ()
  else .error (.validation ("Invalid characters detected in " ++ context ++ ": " ++ identifier))

/-- Split a character list at every occurrence of the separator character,
keeping empty groups (the semantics of both JS `String.split` with a
one-character separator and Lean `String.splitOn`, implemented structurally
so concrete instances evaluate). -/
def splitOnChar (sep : Char) : List Char → List (List Char)
  | [] => [[]]
  | c :: rest =>
    match splitOnChar sep rest with
    | [] => [[]]
    | g :: gs => if c == sep then [] :: g :: gs else (c :: g) :: gs

/-- `String.split` at a one-character separator, as strings. -/
def strSplitOn (sep : Char) (s : String) : List String :=
  (splitOnChar sep s.data).map String.mk

/-- JS `String.prototype.trim`: drop whitespace from both ends (structural
implementation; the JS whitespace set is approximated by
`Char.isWhitespace`). -/
def jsTrim (s : String) : String :=
  String.mk (((s.data.dropWhile Char.isWhitespace).reverse.dropWhile Char.isWhitespace).reverse)

/-- JS `String.prototype.toUpperCase`, restricted to the ASCII mapping the
compiler relies on. -/
def strToUpper (s : String) : String :=
  String.mk (s.data.map Char.toUpper)

/-- A character the JavaScript regex metacharacter `.` refuses to match
(line terminators). -/
def isJsLineTerminator (c : Char) : Bool :=
  c == '\n' || c == '\r' || c == '\u2028' || c == '\u2029'

/-- The split performed by the regex `/^(.*?)(->>|->)(.*)$/` of `_quoteField`:
split at the first occurrence of `->>` or `->` (preferring `->>`), returning
the characters before the operator, the operator, and the characters after. -/
def jsonOpSplit : List Char → Option (List Char × String × List Char)
  | [] => none
  | '-' :: '>' :: '>' :: rest => some ([], "->>", rest)
  | '-' :: '>' :: rest => some ([], "->", rest)
  | c :: rest =>
    match jsonOpSplit rest with
    | some (pre, op, post) => some (c :: pre, op, post)
    | none => none

/-- `DSLite._quoteField`: centralized field quoting and validation.
`*` is returned unchanged; a JSON accessor `col->>path` validates and quotes
the column part and embeds the path as a `$.`-prefixed string literal; a
plain dotted path validates and quotes each segment.  (The JSON-accessor
regex cannot match across line terminators, hence the guard.) -/
def quoteField (fieldStr : String) : Except DSLiteError String :=
  if fieldStr = "*" then .ok "*"
  else
    match (if fieldStr.data.all (fun c => !isJsLineTerminator c)
           then jsonOpSplit fieldStr.data else none) with
    | some (pre, op, post) => do
      let column := jsTrim (String.mk pre)
      let path := jsTrim (String.mk post)
      let parts := strSplitOn '.' column
      let _ ← parts.mapM (fun part => validateIdentifier part "JSON column name")
      let quotedColumn := String.intercalate "." (parts.map (fun s => "`" ++ s ++ "`"))
      .ok (quotedColumn ++ " " ++ op ++ " " ++ "\x27$." ++ path ++ "\x27")
    | none => do
      let qparts ← (strSplitOn '.' fieldStr).mapM (fun part => do
        let _ ← validateIdentifier part "field name"
        pure ("`" ++ part ++ "`"))
      .ok (String.intercalate "." qparts)

/-- The query-clause AST (`DslQueryClause`): a tagged union with one tag per
node.  `range` carries its operator map as an association list in key order;
`boolC` carries the four child sequences. -/
inductive Clause where
  | term (field : String) (value : SqlValue)
  | terms (field : String) (values : List SqlValue)
  | matchC (field : String) (query : String)
  | matchPhrase (field : String) (value : String)
  | multiMatch (query : String) (fields : List String)
  | existsQ (field : String)
  | range (field : String) (ops : List (String × SqlValue))
  | boolC (must filter should mustNot : List Clause)

/-- `DSLite._parseTerm`: `<field> = ?` with the value as single parameter. -/
def parseTerm (field : String) (value : SqlValue) : Except DSLiteError SqlResult := do
  let qf ← quoteField field
  pure ⟨qf ++ " = ?", [value]⟩

/-- `DSLite._parseTerms`: empty value list compiles to `1=0`; otherwise
`<field> IN (?,...)` with one placeholder and one parameter per value. -/
def parseTerms (field : String) (values : List SqlValue) : Except DSLiteError SqlResult :=
  if values.isEmpty then .ok ⟨"1=0", []⟩
  else do
    let qf ← quoteField field
    pure ⟨qf ++ " IN (" ++ String.intercalate "," (values.map (fun _ => "?")) ++ ")", values⟩

/-- `DSLite._parseMatch`: split the query text on the space character,
drop empty tokens; no tokens compiles to `1=1`, otherwise AND together one
`<field> LIKE ?` per token with parameter `%token%`. -/
def parseMatch (field : String) (query : String) : Except DSLiteError SqlResult := do
  let quotedField ← quoteField field
  let terms := (strSplitOn ' ' query).filter (fun t => t.length > 0)
  if terms.isEmpty then pure ⟨"1=1", []⟩
  else
    pure ⟨"(" ++ String.intercalate " AND " (terms.map (fun _ => quotedField ++ " LIKE ?")) ++ ")",
          terms.map (fun t => SqlValue.str ("%" ++ t ++ "%"))⟩

/-- `DSLite._parseMatchPhrase`: a single `<field> LIKE ?` with `%phrase%`. -/
def parseMatchPhrase (field : String) (value : String) : Except DSLiteError SqlResult := do
  let qf ← quoteField field
  pure ⟨qf ++ " LIKE ?", [SqlValue.str ("%" ++ value ++ "%")]⟩

/-- `DSLite._parseMultiMatch`: empty text or field list compiles to `1=0`;
otherwise OR together one AND-of-LIKE block per field. -/
def parseMultiMatch (query : String) (fields : List String) : Except DSLiteError SqlResult :=
  if query.isEmpty || fields.isEmpty then .ok ⟨"1=0", []⟩
  else
    let terms := (strSplitOn ' ' query).filter (fun t => t.length > 0)
    if terms.isEmpty then .ok ⟨"1=1", []⟩
    else do
      let blocks ← fields.mapM (fun field => do
        let quotedField ← quoteField field
        pure ("(" ++ String.intercalate " AND " (terms.map (fun _ => quotedField ++ " LIKE ?")) ++ ")"))
      pure ⟨"(" ++ String.intercalate " OR " blocks ++ ")",
            fields.flatMap (fun _ => terms.map (fun t => SqlValue.str ("%" ++ t ++ "%")))⟩

/-- `DSLite._parseExists`: missing field compiles to `1=0`, otherwise
`<field> IS NOT NULL` with no parameters. -/
def parseExists (field : String) : Except DSLiteError SqlResult :=
  if field.isEmpty then .ok ⟨"1=0", []⟩
  else do
    let qf ← quoteField field
    pure ⟨qf ++ " IS NOT NULL", []⟩

/-- The `opMap` of `_parseRange`: the recognized operator keys and their
comparison symbols. -/
def rangeOpMap (op : String) : Option String :=
  if op = "gt" then some ">"
  else if op = "gte" then some ">="
  else if op = "lt" then some "<"
  else if op = "lte" then some "<="
  else none

/-- One iteration of the `_parseRange` loop: a recognized key appends a
comparison and its parameter; any other key leaves the accumulator alone. -/
def rangeStep (field : String) (acc : List String × List SqlValue) (kv : String × SqlValue) :
    Except DSLiteError (List String × List SqlValue) :=
  match rangeOpMap kv.1 with
  | some sym => do
    let qf ← quoteField field
    pure (acc.1 ++ [qf ++ " " ++ sym ++ " ?"], acc.2 ++ [kv.2])
  | none => pure acc

/-- `DSLite._parseRange`: emit `<field> <op> ?` for each recognized operator
key in insertion order, AND them together; no recognized key gives `1=1`. -/
def parseRange (field : String) (ops : List (String × SqlValue)) : Except DSLiteError SqlResult := do
  let pairs ← ops.foldlM (rangeStep field) ([], [])
  if pairs.1.isEmpty then pure ⟨"1=1", []⟩
  else pure ⟨"(" ++ String.intercalate " AND " pairs.1 ++ ")", pairs.2⟩

/-- `sizeOf` distributes over list append (used for termination of the
mutually recursive clause compiler). -/
theorem sizeOf_clauseList_append (l₁ l₂ : List Clause) :
    sizeOf (l₁ ++ l₂) + 1 = sizeOf l₁ + sizeOf l₂ := by
  induction l₁ with
  | nil => simp [List.nil_append]; omega
  | cons a l ih => simp [List.cons_append]; omega

/-- The null-returning combination step of `_parseBool.processClauses`:
an empty compiled list yields no group; a non-empty one yields the children
joined by the given joiner, parenthesized, with parameters concatenated. -/
def combineParts (parts : List SqlResult) (joiner : String) : Option SqlResult :=
  if parts.isEmpty then none
  else some ⟨"(" ++ String.intercalate (" " ++ joiner ++ " ") (parts.map SqlResult.sql) ++ ")",
             parts.flatMap SqlResult.params⟩

/-- The final assembly of `_parseBool`: the AND group (or, failing that, the
OR group) is followed by one negated conjunct per `must_not` child; if
nothing at all is present the clause compiles to `1=1`. -/
def parseBoolCombine (mustResult shouldResult : Option SqlResult) (nots : List SqlResult) :
    SqlResult :=
  let g1 : List SqlResult :=
    match mustResult with
    | some r => [r]
    | none =>
      match shouldResult with
      | some r => [r]
      | none => []
  let finalClauses := g1.map SqlResult.sql ++ nots.map (fun p => "(NOT " ++ p.sql ++ ")")
  if finalClauses.isEmpty then ⟨"1=1", []⟩
  else ⟨"(" ++ String.intercalate " AND " finalClauses ++ ")",
        g1.flatMap SqlResult.params ++ nots.flatMap SqlResult.params⟩

mutual

/-- `DSLite._parseQuery` / `_parseBool`: dispatch on the clause tag; the
`bool` arm compiles the concatenation of `must` and `filter` into the AND
group, compiles `should` (used only when the AND group is absent), compiles
every `must_not` child, and combines them via `parseBoolCombine`. -/
def parseQuery : Clause → Except DSLiteError SqlResult
  | .boolC must filter should mustNot => do
    let mustParts ← parseList (must ++ filter)
    let shouldParts ← parseList should
    let nots ← parseList mustNot
    pure (parseBoolCombine (combineParts mustParts "AND") (combineParts shouldParts "OR") nots)
  | .matchC field query => parseMatch field query
  | .matchPhrase field value => parseMatchPhrase field value
  | .multiMatch query fields => parseMultiMatch query fields
  | .existsQ field => parseExists field
  | .term field value => parseTerm field value
  | .terms field values => parseTerms field values
  | .range field ops => parseRange field ops
termination_by c => sizeOf c
decreasing_by
  all_goals simp_wf
  all_goals first
    | omega
    | (have h := sizeOf_clauseList_append must filter; omega)

/-- Compile a sequence of child clauses in order, propagating the first
failure (the `clauseArray.map(q => this._parseQuery(q))` idiom). -/
def parseList : List Clause → Except DSLiteError (List SqlResult)
  | [] => .ok []
  | c :: cs => do
    let r ← parseQuery c
    let rs ← parseList cs
    pure (r :: rs)
termination_by l => sizeOf l
decreasing_by
  all_goals simp_wf
  all_goals omega

end

/-- JavaScript string falsiness for an optional string: absent or empty. -/
def strFalsy : Option String → Bool
  | none => true
  | some s => s.isEmpty

/-- The `on` object of a join descriptor (`DslJoin.on`). -/
structure DslJoinOn where
  left : Option String
  right : Option String
  op : Option String
deriving DecidableEq, Repr

/-- A join descriptor (`DslJoin`).  Modelled from the spec: the `type` field
of `types.ts` (not under `src/`) ranges over LEFT, INNER, RIGHT and FULL and
is optional; the embedding keeps it as an optional string, as the compiler
manipulates it. -/
structure DslJoin where
  type : Option String
  target : String
  onClause : Option DslJoinOn
deriving DecidableEq, Repr

/-- One fragment of `DSLite._parseJoin`: default the join type to LEFT and
uppercase it, validate the target, fail hard when the `on` clause or either
of its sides is missing, lower both sides, default the operator to `=`. -/
def joinPart (joinDef : DslJoin) : Except DSLiteError String := do
  let type := match joinDef.type with
    | none => "LEFT"
    | some t => if t.isEmpty then "LEFT" else strToUpper t
  let _ ← validateIdentifier joinDef.target "join target table"
  let targetTable := "`" ++ joinDef.target ++ "`"
  match joinDef.onClause with
  | none =>
    .error (.validation ("Invalid JOIN definition for target " ++ joinDef.target ++
      ": \x27on\x27 clause is missing."))
  | some oc =>
    if strFalsy oc.left || strFalsy oc.right then
      .error (.validation ("Invalid JOIN definition for target " ++ joinDef.target ++
        ": \x27on\x27 clause is missing."))
    else do
      let left ← quoteField (oc.left.getD "")
      let op := match oc.op with
        | none => "="
        | some o => if o.isEmpty then "=" else o
      let right ← quoteField (oc.right.getD "")
      pure (type ++ " JOIN " ++ targetTable ++ " ON " ++ left ++ " " ++ op ++ " " ++ right)

/-- `DSLite._parseJoin`: an absent or empty join list lowers to the empty
string; otherwise lower each descriptor in order and join with spaces. -/
def parseJoin (joinArr : Option (List DslJoin)) : Except DSLiteError String :=
  match joinArr with
  | none => .ok ""
  | some arr =>
    if arr.isEmpty then .ok ""
    else do
      let parts ← arr.mapM joinPart
      pure (String.intercalate " " parts)

/-- The alias split performed by `_parseSource` via `/^(.*)\s+as\s+(.*)$/i`:
split at the last `as` that is surrounded by whitespace, returning the text
before the preceding whitespace character and the text from the following
whitespace character on (both are trimmed by the caller, which absorbs the
greedy-versus-backtracking details of the regex groups). -/
def asSplit : List Char → Option (List Char × List Char)
  | [] => none
  | c :: rest =>
    match asSplit rest with
    | some (pre, post) => some (c :: pre, post)
    | none =>
      match rest with
      | a :: s :: d :: _ =>
        if c.isWhitespace && (a == 'a' || a == 'A') && (s == 's' || s == 'S') && d.isWhitespace
        then some ([], rest.drop 2)
        else none
      | _ => none

/-- `DSLite._parseSource`: absent or empty projection lowers to the default;
an `<expr> as <alias>` entry lowers the expression and validates the alias;
a bare entry is lowered directly; entries are joined with commas. -/
def parseSource (sourceArr : Option (List String)) (defaultSource : String) :
    Except DSLiteError String :=
  match sourceArr with
  | none => .ok defaultSource
  | some arr =>
    if arr.isEmpty then .ok defaultSource
    else do
      let entries ← arr.mapM (fun field => do
        match asSplit field.data with
        | some (pre, post) => do
          let originalField ← quoteField (jsTrim (String.mk pre))
          let aliasName := jsTrim (String.mk post)
          let _ ← validateIdentifier aliasName "source alias"
          pure (originalField ++ " as `" ++ aliasName ++ "`")
        | none => quoteField field)
      pure (String.intercalate ", " entries)

/-- `DSLite._parseSort`: each single-key descriptor is lowered and given a
direction normalized to ASC or DESC; an empty list lowers to the empty
string, otherwise the fragments are prefixed with ORDER BY. -/
def parseSort (sortArr : List (String × String)) : Except DSLiteError String :=
  if sortArr.isEmpty then .ok ""
  else do
    let parts ← sortArr.mapM (fun sortObj => do
      let direction := strToUpper sortObj.2
      let direction := if direction ≠ "ASC" && direction ≠ "DESC" then "ASC" else direction
      let fieldSql ← quoteField sortObj.1
      pure (fieldSql ++ " " ++ direction))
    pure ("ORDER BY " ++ String.intercalate ", " parts)

/-- The aggregation block (`aggs`): optional group-by fields plus an optional
metric map of alias to a single-key operation object (kept as an association
list in key order). -/
structure Aggs where
  group_by : Option (List String)
  metrics : Option (List (String × List (String × String)))
deriving DecidableEq, Repr

/-- A search or aggregate request envelope (`DslQuery`).  `from` is a Lean
keyword, hence the field name `fromIdx`. -/
structure DslQuery where
  source : Option (List String)
  query : Option Clause
  join : Option (List DslJoin)
  sort : Option (List (String × String))
  aggs : Option Aggs
  size : Option Int
  fromIdx : Option Int

/-- The WHERE clause of both assemblers: `1=1` when no query is given,
otherwise the compiled clause. -/
def parseWhere (q : DslQuery) : Except DSLiteError SqlResult :=
  match q.query with
  | some c => parseQuery c
  | none => .ok ⟨"1=1", []⟩

/-- The supported aggregation operators. -/
def supportedOps : List String := ["sum", "avg", "count", "min", "max"]

/-- One metric entry of `DSLite.aggregate`: validate the alias, look up the
first operator key; a supported operator contributes `OP(field) as alias`
(with `*` passed through literally), an unsupported one contributes
nothing. -/
def metricSelect (metricName : String) (operation : List (String × String)) :
    Except DSLiteError (List String) := do
  let _ ← validateIdentifier metricName "metric alias"
  match operation.head? with
  | some (opKey, field) =>
    if supportedOps.contains opKey then do
      let fieldSql ← if field = "*" then pure "*" else quoteField field
      pure [strToUpper opKey ++ "(" ++ fieldSql ++ ") as `" ++ metricName ++ "`"]
    else pure []
  | none => pure []

/-- The metric half of the aggregate projection: process the metric entries
in key order and concatenate their contributions. -/
def aggMetricSelects (metrics : Option (List (String × List (String × String)))) :
    Except DSLiteError (List String) :=
  match metrics with
  | some ms => do
    let xs ← ms.mapM (fun m => metricSelect m.1 m.2)
    pure xs.flatten
  | none => .ok []

/-- The SQL text and parameter list assembled by `DSLite.aggregate` before
execution; every validation failure of the source method surfaces here. -/
def aggregateStatement (table : String) (q : DslQuery) :
    Except DSLiteError (String × List SqlValue) := do
  match q.aggs with
  | none => .error (.validation "Table and `aggs` block are required.")
  | some aggs =>
    if table.isEmpty then .error (.validation "Table and `aggs` block are required.")
    else do
      let _ ← validateIdentifier table "table name"
      let joinSql ← parseJoin q.join
      let w ← parseWhere q
      let (groupFields, groupBySql) ←
        match aggs.group_by with
        | some gb => do
          let groupFields ← gb.mapM quoteField
          pure (groupFields, "GROUP BY " ++ String.intercalate ", " groupFields)
        | none => pure (([] : List String), "")
      let metricParts ← aggMetricSelects aggs.metrics
      let selectParts := groupFields ++ metricParts
      if selectParts.isEmpty then
        .error (.validation "Aggregation must define \"group_by\" or \"metrics\".")
      else do
        let orderBy ← match q.sort with
          | some s => parseSort s
          | none => pure ""
        let limitPair : String × List SqlValue := match q.size with
          | some n => if n = 0 then ("", []) else ("LIMIT ?", [SqlValue.int n])
          | none => ("", [])
        let selectSql := String.intercalate ", " selectParts
        let finalSql := "SELECT " ++ selectSql ++ " FROM `" ++ table ++ "` " ++ joinSql ++
          " WHERE " ++ w.sql ++ " " ++ groupBySql ++ " " ++ orderBy ++ " " ++ limitPair.1
        pure (finalSql, w.params ++ limitPair.2)

/-- `DSLite.aggregate`, parameterized by the execution backend: assemble the
statement, hand it to the backend, and swallow any execution failure into an
empty result list; validation failures propagate. -/
def aggregate {α : Type} (exec : String → List SqlValue → Except String (List α))
    (table : String) (q : DslQuery) : Except DSLiteError (List α) :=
  match aggregateStatement table q with
  | .error e => .error e
  | .ok (sql, ps) =>
    match exec sql ps with
    | .ok rows => .ok rows
    | .error _ => .ok []

/-- The SQL text and parameter list assembled by `DSLite.search` before
execution: projection, joins, WHERE clause, ORDER BY, then `LIMIT ?` bound
to `size || 10` and `OFFSET ?` bound to `from || 0` (JS falsy defaults). -/
def searchStatement (table : String) (q : DslQuery) :
    Except DSLiteError (String × List SqlValue) := do
  if table.isEmpty then .error (.validation "Table name is required for search.")
  else do
    let _ ← validateIdentifier table "table name"
    let joinSql ← parseJoin q.join
    let selectSql ← parseSource q.source "*"
    let w ← parseWhere q
    let orderBy ← match q.sort with
      | some s => parseSort s
      | none => pure ""
    let limitParams := [SqlValue.int (match q.size with
      | some n => if n = 0 then 10 else n
      | none => 10)]
    let offsetParams := [SqlValue.int (match q.fromIdx with
      | some n => if n = 0 then 0 else n
      | none => 0)]
    let finalSql := "SELECT " ++ selectSql ++ " FROM `" ++ table ++ "` " ++ joinSql ++
      " WHERE " ++ w.sql ++ " " ++ orderBy ++ " LIMIT ? OFFSET ?"
    pure (finalSql, w.params ++ limitParams ++ offsetParams)

/-- `DSLite.search`, parameterized by the execution backend: assemble the
statement, hand it to the backend, and swallow any execution failure into an
empty result list; validation failures propagate. -/
def search {α : Type} (exec : String → List SqlValue → Except String (List α))
    (table : String) (q : DslQuery) : Except DSLiteError (List α) :=
  match searchStatement table q with
  | .error e => .error e
  | .ok (sql, ps) =>
    match exec sql ps with
    | .ok rows => .ok rows
    | .error _ => .ok []

deriving instance DecidableEq for Except

/-- The empty request envelope: every optional field absent. -/
def emptyDslQuery : DslQuery :=
  { source := none, query := none, join := none, sort := none,
    aggs := none, size := none, fromIdx := none }

/-- The character class of the spec regex `^[A-Za-z0-9_]+$`, stated
independently of the implementation. -/
def specSafeChar (c : Char) : Prop :=
  ('A' ≤ c ∧ c ≤ 'Z') ∨ ('a' ≤ c ∧ c ≤ 'z') ∨ ('0' ≤ c ∧ c ≤ '9') ∨ c = '_'

instance (c : Char) : Decidable (specSafeChar c) := by
  unfold specSafeChar; infer_instance

/-- C1: identifier validation succeeds exactly on non-empty strings over
`[A-Za-z0-9_]`; on any other string it fails with a validation error whose
message carries the context label and the offending string; and when table
validation fails, the search assembler yields that error and no SQL text is
produced. -/
theorem c1_identifier_validation (s ctx : String) :
    (validateIdentifier s ctx = .ok () ↔ s ≠ "" ∧ ∀ c ∈ s.data, specSafeChar c)
    ∧ ((s = "" ∨ ∃ c ∈ s.data, ¬ specSafeChar c) →
        validateIdentifier s ctx =
          .error (.validation ("Invalid characters detected in " ++ ctx ++ ": " ++ s)))
    ∧ (∀ (q : DslQuery) e, s.isEmpty = false →
        validateIdentifier s "table name" = .error e →
        searchStatement s q = .error e) := by
  have hchar : ∀ c : Char, isSafeIdentChar c = true ↔ specSafeChar c := by
    intro c
    simp only [isSafeIdentChar, specSafeChar, Bool.or_eq_true, Bool.and_eq_true,
      decide_eq_true_eq, beq_iff_eq]
    tauto
  have hempty : s.isEmpty = false ↔ s ≠ "" := by
    rw [Bool.eq_false_iff]
    simp [String.isEmpty_iff]
  have htest : safeIdentifierTest s = true ↔ s ≠ "" ∧ ∀ c ∈ s.data, specSafeChar c := by
    simp only [safeIdentifierTest, Bool.and_eq_true, Bool.not_eq_true',
      List.all_eq_true, hchar, hempty]
  refine ⟨?_, ?_, ?_⟩
  · unfold validateIdentifier
    split
    · next hcond =>
      simp only [htest] at hcond
      exact ⟨fun _ => hcond, fun _ => rfl⟩
    · next hcond =>
      simp only [Bool.not_eq_true] at hcond
      constructor
      · intro h; exact absurd h (by simp)
      · intro h
        rw [← htest] at h
        rw [hcond] at h
        exact absurd h (by simp)
  · intro hbad
    unfold validateIdentifier
    split
    · next hcond =>
      simp only [htest] at hcond
      rcases hbad with h | ⟨c, hc, hnc⟩
      · exact absurd h hcond.1
      · exact absurd (hcond.2 c hc) hnc
    · rfl
  · intro q e hne hval
    simp only [searchStatement, hne, Bool.false_eq_true, if_false, hval]
    rfl

/-- Witness for C1 at concrete identifiers: a safe name is accepted, a name
with `-` and `;` is rejected with the labelled message, and a bad table name
aborts search assembly with the same error. -/
theorem c1_identifier_validation_witness :
    validateIdentifier "user_1" "column name" = .ok ()
    ∧ validateIdentifier "user-1;x" "column name" =
        .error (.validation "Invalid characters detected in column name: user-1;x")
    ∧ searchStatement "bad name" emptyDslQuery =
        .error (.validation "Invalid characters detected in table name: bad name") :=
  ⟨(c1_identifier_validation "user_1" "column name").1.mpr (by decide),
   (c1_identifier_validation "user-1;x" "column name").2.1 (by decide),
   (c1_identifier_validation "bad name" "column name").2.2 emptyDslQuery _ (by decide) (by decide)⟩

/-- C2: for search and aggregate, an execution failure of the assembled
statement is swallowed into an empty result list — the result is identical
to that of a backend returning no rows — while any failure raised during
assembly (validation) propagates unchanged no matter what the backend
does. -/
theorem c2_read_failures_swallowed {α : Type} (table : String) (q : DslQuery) (m : String) :
    (search (fun _ _ => .error m) table q = search (fun _ _ => .ok ([] : List α)) table q
     ∧ aggregate (fun _ _ => .error m) table q = aggregate (fun _ _ => .ok ([] : List α)) table q)
    ∧ (∀ s ps, searchStatement table q = .ok (s, ps) →
        search (α := α) (fun _ _ => .error m) table q = .ok [])
    ∧ (∀ s ps, aggregateStatement table q = .ok (s, ps) →
        aggregate (α := α) (fun _ _ => .error m) table q = .ok [])
    ∧ (∀ e, searchStatement table q = .error e →
        ∀ exec : String → List SqlValue → Except String (List α),
          search exec table q = .error e)
    ∧ (∀ e, aggregateStatement table q = .error e →
        ∀ exec : String → List SqlValue → Except String (List α),
          aggregate exec table q = .error e) := by
  refine ⟨⟨?_, ?_⟩, ?_, ?_, ?_, ?_⟩
  · unfold search
    cases h : searchStatement table q with
    | error e => rfl
    | ok p => rfl
  · unfold aggregate
    cases h : aggregateStatement table q with
    | error e => rfl
    | ok p => rfl
  · intro s ps h
    unfold search
    rw [h]
  · intro s ps h
    unfold aggregate
    rw [h]
  · intro e h exec
    unfold search
    rw [h]
  · intro e h exec
    unfold aggregate
    rw [h]

/-- Witness for C2: over the empty request on table `users`, a failing
backend makes search return an empty list, and the missing `aggs` block
makes aggregate propagate its validation error for any backend. -/
theorem c2_read_failures_swallowed_witness :
    search (α := Nat) (fun _ _ => .error "boom") "users" emptyDslQuery = .ok []
    ∧ aggregate (α := Nat) (fun _ _ => .ok [3]) "users" emptyDslQuery =
        .error (.validation "Table and `aggs` block are required.") :=
  ⟨(c2_read_failures_swallowed "users" emptyDslQuery "boom").2.1
      "SELECT * FROM `users`  WHERE 1=1  LIMIT ? OFFSET ?" [.int 10, .int 0] (by decide),
   (c2_read_failures_swallowed "users" emptyDslQuery "boom").2.2.2.2
      (.validation "Table and `aggs` block are required.") (by decide) (fun _ _ => .ok [3])⟩

/-- Inversion of a successful `Except` bind. -/
theorem except_bind_ok_iff {ε α β} (x : Except ε α) (f : α → Except ε β) (b : β) :
    (x >>= f) = .ok b ↔ ∃ a, x = .ok a ∧ f a = .ok b := by
  cases x <;> simp [Bind.bind, Except.bind]

/-- A successfully compiled clause list has one result per input clause. -/
theorem parseList_length {l : List Clause} {rs : List SqlResult}
    (h : parseList l = .ok rs) : rs.length = l.length := by
  induction l generalizing rs with
  | nil =>
    simp only [parseList] at h
    cases h
    rfl
  | cons c cs ih =>
    simp only [parseList] at h
    obtain ⟨r, hq, h⟩ := (except_bind_ok_iff _ _ _).mp h
    obtain ⟨rs', hl, h⟩ := (except_bind_ok_iff _ _ _).mp h
    cases h
    simp [ih hl]

/-- A non-empty compiled group combines into the parenthesized join of its
members. -/
theorem combineParts_ne_nil {parts : List SqlResult} (j : String) (h : parts ≠ []) :
    combineParts parts j =
      some ⟨"(" ++ String.intercalate (" " ++ j ++ " ") (parts.map SqlResult.sql) ++ ")",
            parts.flatMap SqlResult.params⟩ := by
  unfold combineParts
  rw [if_neg (by simpa [List.isEmpty_iff] using h)]

/-- Wrapping a parenthesized fragment in one more pair of parentheses. -/
theorem paren_nest (a : String) : "(" ++ ("(" ++ a ++ ")") ++ ")" = "((" ++ a ++ "))" := by
  have h1 : ("((" : String) = "(" ++ "(" := rfl
  have h2 : ("))" : String) = ")" ++ ")" := rfl
  rw [h1, h2]
  simp only [String.append_assoc]

/-- Binding a success just applies the continuation. -/
theorem except_ok_bind {ε α β} (a : α) (f : α → Except ε β) :
    ((Except.ok a : Except ε α) >>= f) = f a := rfl

/-- Binding a failure short-circuits. -/
theorem except_error_bind {ε α β} (e : ε) (f : α → Except ε β) :
    ((Except.error e : Except ε α) >>= f) = .error e := rfl

/-- Interposing a separator in a one-element list is the identity. -/
theorem intercalate_singleton (s a : String) : String.intercalate s [a] = a := rfl

/-- C3: in a `bool` clause with a non-empty `must`/`filter` group, the
`should` sequence contributes nothing (provided it compiles): the clause
compiles exactly as with `should` removed, and (with no `must_not`) the
result is the AND of the compiled `must`/`filter` children; when `must` and
`filter` are empty and `should` is non-empty (and `must_not` is empty, the
`must_not` interplay being settled separately), the result is the OR of the
compiled `should` children. -/
theorem c3_bool_should_discarded (must filter should mustNot : List Clause) :
    ((must ++ filter) ≠ [] → (parseList should).isOk = true →
      parseQuery (.boolC must filter should mustNot) =
        parseQuery (.boolC must filter [] mustNot))
    ∧ (∀ rs, (must ++ filter) ≠ [] → mustNot = [] → (parseList should).isOk = true →
        parseList (must ++ filter) = .ok rs →
        parseQuery (.boolC must filter should mustNot) =
          .ok ⟨"((" ++ String.intercalate " AND " (rs.map SqlResult.sql) ++ "))",
               rs.flatMap SqlResult.params⟩)
    ∧ (∀ ss, must = [] → filter = [] → should ≠ [] → mustNot = [] →
        parseList should = .ok ss →
        parseQuery (.boolC must filter should mustNot) =
          .ok ⟨"((" ++ String.intercalate " OR " (ss.map SqlResult.sql) ++ "))",
               ss.flatMap SqlResult.params⟩) := by
  refine ⟨?_, ?_, ?_⟩
  · intro hne hok
    obtain ⟨ss, hss⟩ : ∃ ss, parseList should = .ok ss := by
      cases h : parseList should with
      | error e => rw [h] at hok; simp [Except.isOk, Except.toBool] at hok
      | ok ss => exact ⟨ss, rfl⟩
    simp only [parseQuery]
    cases hm : parseList (must ++ filter) with
    | error e => rfl
    | ok rs =>
      have hrs : rs ≠ [] := by
        intro hnil
        apply hne
        have := parseList_length hm
        rw [hnil] at this
        exact List.eq_nil_of_length_eq_zero this.symm
      simp only [except_ok_bind]
      rw [hss, show parseList [] = .ok [] by simp [parseList]]
      simp only [except_ok_bind]
      rw [combineParts_ne_nil "AND" hrs]
      rfl
  · intro rs hne hmn hok hm
    subst hmn
    obtain ⟨ss, hss⟩ : ∃ ss, parseList should = .ok ss := by
      cases h : parseList should with
      | error e => rw [h] at hok; simp [Except.isOk, Except.toBool] at hok
      | ok ss => exact ⟨ss, rfl⟩
    have hrs : rs ≠ [] := by
      intro hnil
      apply hne
      have := parseList_length hm
      rw [hnil] at this
      exact List.eq_nil_of_length_eq_zero this.symm
    simp only [parseQuery]
    rw [hm]
    simp only [except_ok_bind]
    rw [hss, show parseList [] = .ok [] by simp [parseList]]
    simp only [except_ok_bind]
    rw [combineParts_ne_nil "AND" hrs]
    rw [show (" " ++ "AND" ++ " " : String) = " AND " from rfl]
    simp only [parseBoolCombine, List.map_cons, List.map_nil, List.flatMap_cons,
      List.flatMap_nil, List.append_nil, List.isEmpty_cons, Bool.false_eq_true, if_false,
      intercalate_singleton]
    rw [paren_nest]
    rfl
  · intro ss hm hf hsne hmn hss
    subst hm; subst hf; subst hmn
    have hssne : ss ≠ [] := by
      intro hnil
      apply hsne
      have := parseList_length hss
      rw [hnil] at this
      exact List.eq_nil_of_length_eq_zero this.symm
    simp only [parseQuery, List.nil_append]
    rw [show parseList ([] : List Clause) = .ok [] by simp [parseList]]
    simp only [except_ok_bind]
    rw [hss]
    simp only [except_ok_bind]
    rw [combineParts_ne_nil "OR" hssne]
    rw [show (" " ++ "OR" ++ " " : String) = " OR " from rfl]
    simp only [combineParts, List.isEmpty_nil, if_true, parseBoolCombine, List.map_cons,
      List.map_nil, List.flatMap_cons, List.flatMap_nil, List.append_nil, List.isEmpty_cons,
      Bool.false_eq_true, if_false, intercalate_singleton]
    rw [paren_nest]
    rfl

/-- Witness for C3: with `must` populated, adding a `should` child changes
nothing; with only `should` populated, the children are OR-ed. -/
theorem c3_bool_should_discarded_witness :
    parseQuery (.boolC [.term "a" (.str "x")] [] [.term "b" (.str "y")] []) =
      parseQuery (.boolC [.term "a" (.str "x")] [] [] [])
    ∧ parseQuery (.boolC [] [] [.term "a" (.str "x"), .term "b" (.str "y")] []) =
        .ok ⟨"((`a` = ? OR `b` = ?))", [.str "x", .str "y"]⟩ :=
  ⟨(c3_bool_should_discarded [.term "a" (.str "x")] [] [.term "b" (.str "y")] []).1
      (by simp)
      (by simp only [parseList, parseQuery]; decide),
   (c3_bool_should_discarded [] [] [.term "a" (.str "x"), .term "b" (.str "y")] []).2.2
      [⟨"`a` = ?", [.str "x"]⟩, ⟨"`b` = ?", [.str "y"]⟩] rfl rfl (by simp) rfl
      (by simp only [parseList, parseQuery]; decide)⟩

/-- C4: every compiled `must_not` child is AND-ed in as a separate negated
top-level conjunct after the G1 group, no matter whether G1 came from
`must`/`filter` or from `should` (captured by `Option.or` over the two
candidate groups); with no G1 at all the negations alone are AND-ed; and the
all-empty `bool` clause compiles to `1=1` with no parameters. -/
theorem c4_must_not_conjuncts (must filter should mustNot : List Clause) :
    parseQuery (.boolC [] [] [] []) = .ok ⟨"1=1", []⟩
    ∧ (∀ mr sr g ps, parseList (must ++ filter) = .ok mr → parseList should = .ok sr →
        parseList mustNot = .ok ps →
        (combineParts mr "AND").or (combineParts sr "OR") = some g →
        parseQuery (.boolC must filter should mustNot) =
          .ok ⟨"(" ++ String.intercalate " AND "
                 (g.sql :: ps.map (fun p => "(NOT " ++ p.sql ++ ")")) ++ ")",
               g.params ++ ps.flatMap SqlResult.params⟩)
    ∧ (∀ ps, must = [] → filter = [] → should = [] → parseList mustNot = .ok ps → ps ≠ [] →
        parseQuery (.boolC must filter should mustNot) =
          .ok ⟨"(" ++ String.intercalate " AND "
                 (ps.map (fun p => "(NOT " ++ p.sql ++ ")")) ++ ")",
               ps.flatMap SqlResult.params⟩) := by
  refine ⟨?_, ?_, ?_⟩
  · simp only [parseQuery, List.nil_append]
    rw [show parseList ([] : List Clause) = .ok [] by simp [parseList]]
    simp only [except_ok_bind]
    rfl
  · intro mr sr g ps hm hs hn hg
    simp only [parseQuery]
    rw [hm]
    simp only [except_ok_bind]
    rw [hs]
    simp only [except_ok_bind]
    rw [hn]
    simp only [except_ok_bind]
    cases hcm : combineParts mr "AND" with
    | some r =>
      rw [hcm] at hg
      simp only [Option.or] at hg
      cases hg
      simp only [parseBoolCombine, List.map_cons, List.map_nil, List.flatMap_cons,
        List.flatMap_nil, List.isEmpty_cons, Bool.false_eq_true, if_false,
        List.cons_append, List.nil_append, List.append_nil]
      rfl
    | none =>
      rw [hcm] at hg
      simp only [Option.or] at hg
      rw [hg]
      simp only [parseBoolCombine, List.map_cons, List.map_nil, List.flatMap_cons,
        List.flatMap_nil, List.isEmpty_cons, Bool.false_eq_true, if_false,
        List.cons_append, List.nil_append, List.append_nil]
      rfl
  · intro ps hm hf hs hn hne
    subst hm; subst hf; subst hs
    simp only [parseQuery, List.nil_append]
    rw [show parseList ([] : List Clause) = .ok [] by simp [parseList]]
    simp only [except_ok_bind]
    rw [hn]
    simp only [except_ok_bind]
    simp only [parseBoolCombine, combineParts, List.isEmpty_nil, if_true, List.map_nil,
      List.flatMap_nil, List.nil_append]
    rw [if_neg (by simp only [List.isEmpty_iff, List.map_eq_nil_iff]; exact hne)]
    rfl

/-- Witness for C4: a `must_not` negation is AND-ed after a `must`-derived
group and equally after a `should`-derived group. -/
theorem c4_must_not_conjuncts_witness :
    parseQuery (.boolC [.term "status" (.str "active")] [] [] [.term "name" (.str "Bob")]) =
      .ok ⟨"((`status` = ?) AND (NOT `name` = ?))", [.str "active", .str "Bob"]⟩
    ∧ parseQuery (.boolC [] [] [.term "a" (.str "x")] [.term "b" (.str "y")]) =
        .ok ⟨"((`a` = ?) AND (NOT `b` = ?))", [.str "x", .str "y"]⟩ :=
  ⟨(c4_must_not_conjuncts [.term "status" (.str "active")] [] [] [.term "name" (.str "Bob")]).2.1
      [⟨"`status` = ?", [.str "active"]⟩] [] ⟨"(`status` = ?)", [.str "active"]⟩
      [⟨"`name` = ?", [.str "Bob"]⟩]
      (by rw [List.append_nil]; simp only [parseList, parseQuery]; decide)
      (by simp only [parseList])
      (by simp only [parseList, parseQuery]; decide)
      (by decide),
   (c4_must_not_conjuncts [] [] [.term "a" (.str "x")] [.term "b" (.str "y")]).2.1
      [] [⟨"`a` = ?", [.str "x"]⟩] ⟨"(`a` = ?)", [.str "x"]⟩
      [⟨"`b` = ?", [.str "y"]⟩]
      (by simp only [List.nil_append, parseList])
      (by simp only [parseList, parseQuery]; decide)
      (by simp only [parseList, parseQuery]; decide)
      (by decide)⟩

/-- C5: a `terms` clause with an empty value sequence compiles to the
always-false predicate `1=0` with no parameters; otherwise it compiles to
`<field> IN (?,...)` with exactly one placeholder and one parameter per
value, parameters in input order. -/
theorem c5_terms_compilation (field : String) (values : List SqlValue) :
    (values = [] → parseQuery (.terms field values) = .ok ⟨"1=0", []⟩)
    ∧ (∀ qf, values ≠ [] → quoteField field = .ok qf →
        parseQuery (.terms field values) =
          .ok ⟨qf ++ " IN (" ++
                 String.intercalate "," (List.replicate values.length "?") ++ ")",
               values⟩) := by
  constructor
  · intro hv
    subst hv
    simp only [parseQuery, parseTerms, List.isEmpty_nil, if_true]
  · intro qf hne hqf
    simp only [parseQuery, parseTerms, hqf, except_ok_bind]
    rw [show values.map (fun _ => "?") = List.replicate values.length "?" from
      List.map_const' values "?"]
    rw [if_neg (by simpa [List.isEmpty_iff] using hne)]
    rfl

/-- Witness for C5: an empty allow-list matches nothing; a two-value list
binds two placeholders in input order. -/
theorem c5_terms_compilation_witness :
    parseQuery (.terms "status" []) = .ok ⟨"1=0", []⟩
    ∧ parseQuery (.terms "status" [.str "a", .str "b"]) =
        .ok ⟨"`status` IN (?,?)", [.str "a", .str "b"]⟩ :=
  ⟨(c5_terms_compilation "status" []).1 rfl,
   (c5_terms_compilation "status" [.str "a", .str "b"]).2 "`status`" (by simp) (by decide)⟩

/-- Split a character list at every character satisfying the predicate,
keeping empty groups. -/
def splitOnPred (p : Char → Bool) : List Char → List (List Char)
  | [] => [[]]
  | c :: rest =>
    match splitOnPred p rest with
    | [] => [[]]
    | g :: gs => if p c then [] :: g :: gs else (c :: g) :: gs

/-- Modelled from the spec: the tokens of a `match` clause per the spec text
"split the query text on whitespace into tokens, dropping empty tokens"
(stated for comparison with the compiled form, which splits on the space
character only). -/
def specWhitespaceTokens (text : String) : List String :=
  ((splitOnPred Char.isWhitespace text.data).map String.mk).filter (fun t => t.length > 0)

/-- Counterexample to C6 as stated: on the query text `a<TAB>b` the spec
tokenization (split on whitespace) yields two tokens, so the claim predicts
two AND-ed LIKE conditions with parameters `%a%`, `%b%`; the compiler splits
on the space character only and produces a single LIKE condition whose one
parameter still contains the tab. -/
theorem c6_match_whitespace_counterexample :
    specWhitespaceTokens "a\tb" = ["a", "b"]
    ∧ parseQuery (.matchC "name" "a\tb") = .ok ⟨"(`name` LIKE ?)", [.str "%a\tb%"]⟩
    ∧ parseQuery (.matchC "name" "a\tb") ≠
        .ok ⟨"(`name` LIKE ? AND `name` LIKE ?)", [.str "%a%", .str "%b%"]⟩ := by
  refine ⟨by decide, ?_, ?_⟩
  · simp only [parseQuery]
    decide
  · simp only [parseQuery]
    decide

/-- C6 amended: the query text is split on the space character (not general
whitespace) with empty tokens dropped; zero tokens compile to `1=1`,
otherwise one `<field> LIKE ?` per token is AND-ed, each parameter being the
token wrapped as `%token%`, in token order. -/
theorem c6_match_space_split (field query qf : String)
    (hqf : quoteField field = .ok qf) :
    ((strSplitOn ' ' query).filter (fun t => t.length > 0) = [] →
      parseQuery (.matchC field query) = .ok ⟨"1=1", []⟩)
    ∧ (∀ toks, toks = (strSplitOn ' ' query).filter (fun t => t.length > 0) → toks ≠ [] →
        parseQuery (.matchC field query) =
          .ok ⟨"(" ++ String.intercalate " AND "
                 (List.replicate toks.length (qf ++ " LIKE ?")) ++ ")",
               toks.map (fun t => SqlValue.str ("%" ++ t ++ "%"))⟩) := by
  constructor
  · intro htoks
    simp only [parseQuery, parseMatch, hqf, except_ok_bind, htoks, List.isEmpty_nil, if_true]
    rfl
  · intro toks htoks hne
    simp only [parseQuery, parseMatch, hqf, except_ok_bind, ← htoks]
    rw [if_neg (by simpa [List.isEmpty_iff] using hne)]
    rw [show toks.map (fun _ => qf ++ " LIKE ?") = List.replicate toks.length (qf ++ " LIKE ?")
      from List.map_const' toks (qf ++ " LIKE ?")]
    rfl

/-- Witness for C6 amended: a double-spaced two-word query compiles to two
AND-ed LIKE conditions with `%`-wrapped parameters in order; an all-space
query compiles to `1=1`. -/
theorem c6_match_space_split_witness :
    parseQuery (.matchC "title" "hello  world") =
      .ok ⟨"(`title` LIKE ? AND `title` LIKE ?)", [.str "%hello%", .str "%world%"]⟩
    ∧ parseQuery (.matchC "title" "  ") = .ok ⟨"1=1", []⟩ :=
  ⟨(c6_match_space_split "title" "hello  world" "`title`" (by decide)).2
      ["hello", "world"] (by decide) (by simp),
   (c6_match_space_split "title" "  " "`title`" (by decide)).1 (by decide)⟩

/-- Unfolding the `_parseRange` accumulator loop under a valid field: it
appends one comparison and one parameter per recognized operator key, in
input order. -/
theorem rangeFold_ok {field qf : String} (hqf : quoteField field = .ok qf)
    (ops : List (String × SqlValue)) (acc : List String × List SqlValue) :
    ops.foldlM (rangeStep field) acc =
      .ok (acc.1 ++ ops.filterMap
             (fun kv => (rangeOpMap kv.1).map (fun sym => qf ++ " " ++ sym ++ " ?")),
           acc.2 ++ ops.filterMap (fun kv => (rangeOpMap kv.1).map (fun _ => kv.2))) := by
  induction ops generalizing acc with
  | nil =>
    simp only [List.filterMap_nil, List.append_nil]
    rfl
  | cons kv tl ih =>
    rw [show (kv :: tl).foldlM (rangeStep field) acc =
      rangeStep field acc kv >>= fun b => tl.foldlM (rangeStep field) b from rfl]
    cases h : rangeOpMap kv.1 with
    | some sym =>
      have hstep : rangeStep field acc kv =
          .ok (acc.1 ++ [qf ++ " " ++ sym ++ " ?"], acc.2 ++ [kv.2]) := by
        simp only [rangeStep, h, hqf, except_ok_bind]
        rfl
      rw [hstep]
      simp only [except_ok_bind]
      rw [ih]
      simp [List.filterMap_cons, h, List.append_assoc]
    | none =>
      have hstep : rangeStep field acc kv = .ok acc := by
        simp only [rangeStep, h]
        rfl
      rw [hstep]
      simp only [except_ok_bind]
      rw [ih]
      simp [List.filterMap_cons, h]

/-- C7: a `range` clause emits `<field> <op> ?` exactly for the operator
keys in `{gt, gte, lt, lte}` (`gt` is `>`, `gte` is `>=`, `lt` is `<`,
`lte` is `<=`), AND-ed in input-map order with parameters in the same
order; other keys contribute nothing and can be deleted without changing
the result; with no recognized key the clause compiles to `1=1`. -/
theorem c7_range_compilation (field : String) (ops : List (String × SqlValue)) :
    (∀ qf, quoteField field = .ok qf →
      parseQuery (.range field ops) =
        (let conds := ops.filterMap (fun kv =>
            if kv.1 = "gt" then some (qf ++ " > ?")
            else if kv.1 = "gte" then some (qf ++ " >= ?")
            else if kv.1 = "lt" then some (qf ++ " < ?")
            else if kv.1 = "lte" then some (qf ++ " <= ?")
            else none)
         let ps := ops.filterMap (fun kv =>
            if kv.1 = "gt" ∨ kv.1 = "gte" ∨ kv.1 = "lt" ∨ kv.1 = "lte"
            then some kv.2 else none)
         if conds = [] then Except.ok ⟨"1=1", []⟩
         else Except.ok ⟨"(" ++ String.intercalate " AND " conds ++ ")", ps⟩))
    ∧ (∀ ops₁ ops₂ k v, rangeOpMap k = none →
        parseQuery (.range field (ops₁ ++ (k, v) :: ops₂)) =
          parseQuery (.range field (ops₁ ++ ops₂))) := by
  constructor
  · intro qf hqf
    simp only [parseQuery, parseRange]
    rw [rangeFold_ok hqf ops ([], [])]
    simp only [List.nil_append, except_ok_bind]
    have hconds : (fun kv : String × SqlValue =>
        (rangeOpMap kv.1).map (fun sym => qf ++ " " ++ sym ++ " ?")) = (fun kv =>
        if kv.1 = "gt" then some (qf ++ " > ?")
        else if kv.1 = "gte" then some (qf ++ " >= ?")
        else if kv.1 = "lt" then some (qf ++ " < ?")
        else if kv.1 = "lte" then some (qf ++ " <= ?")
        else none) := by
      funext kv
      unfold rangeOpMap
      split_ifs <;> simp only [Option.map_some', Option.map_none'] <;>
        first
          | rfl
          | (rw [String.append_assoc, String.append_assoc]; rfl)
    have hps : (fun kv : String × SqlValue =>
        (rangeOpMap kv.1).map (fun _ => kv.2)) = (fun kv =>
        if kv.1 = "gt" ∨ kv.1 = "gte" ∨ kv.1 = "lt" ∨ kv.1 = "lte"
        then some kv.2 else none) := by
      funext kv
      unfold rangeOpMap
      split_ifs <;> simp_all
    rw [hconds, hps]
    simp only [← List.isEmpty_iff]
    cases hemp : (ops.filterMap (fun kv =>
        if kv.1 = "gt" then some (qf ++ " > ?")
        else if kv.1 = "gte" then some (qf ++ " >= ?")
        else if kv.1 = "lt" then some (qf ++ " < ?")
        else if kv.1 = "lte" then some (qf ++ " <= ?")
        else none)).isEmpty <;> simp [hemp] <;> rfl
  · intro ops₁ ops₂ k v hk
    simp only [parseQuery, parseRange]
    have hfold : (ops₁ ++ (k, v) :: ops₂).foldlM (rangeStep field) ([], []) =
        (ops₁ ++ ops₂).foldlM (rangeStep field) ([], []) := by
      rw [List.foldlM_append, List.foldlM_append]
      cases h1 : ops₁.foldlM (rangeStep field) ([], []) with
      | error e => rfl
      | ok b =>
        simp only [except_ok_bind]
        rw [show ((k, v) :: ops₂).foldlM (rangeStep field) b =
          rangeStep field b (k, v) >>= fun b => ops₂.foldlM (rangeStep field) b from rfl]
        have hstep : rangeStep field b (k, v) = .ok b := by
          simp only [rangeStep, hk]
          rfl
        rw [hstep]
        rfl
    rw [hfold]

/-- Witness for C7: `{age: {gt: 25, ne: 1, lt: 65}}` produces the two
recognized comparisons with parameters `[25, 65]` in order, the `ne` key
contributes nothing and can be deleted, and an all-unrecognized map gives
`1=1`. -/
theorem c7_range_compilation_witness :
    parseQuery (.range "age" [("gt", .int 25), ("ne", .int 1), ("lt", .int 65)]) =
      .ok ⟨"(`age` > ? AND `age` < ?)", [.int 25, .int 65]⟩
    ∧ parseQuery (.range "age" [("gt", .int 25), ("ne", .int 1)]) =
        parseQuery (.range "age" [("gt", .int 25)])
    ∧ parseQuery (.range "age" [("ne", .int 1)]) = .ok ⟨"1=1", []⟩ :=
  ⟨(c7_range_compilation "age" [("gt", .int 25), ("ne", .int 1), ("lt", .int 65)]).1
      "`age`" (by decide),
   (c7_range_compilation "age" [("gt", .int 25), ("ne", .int 1)]).2
      [("gt", .int 25)] [] "ne" (.int 1) (by decide),
   (c7_range_compilation "age" [("ne", .int 1)]).1 "`age`" (by decide)⟩

/-- Reassociating the defaulted `=` operator into its surrounding spaces. -/
theorem append_op_default (x y : String) :
    x ++ " " ++ "=" ++ " " ++ y = x ++ " = " ++ y := by
  rw [String.append_assoc (x ++ " ") "=" " ", String.append_assoc x " " ("=" ++ " ")]
  rfl

/-- C8: join lowering — an absent or empty join list lowers to the empty
string; fragments are emitted in input order joined by spaces; the join
type defaults to `LEFT` and each allowed type value is used verbatim; the
comparison operator defaults to `=`; a descriptor missing `on`, `on.left`
or `on.right` is a hard validation failure. -/
theorem c8_join_lowering :
    (parseJoin none = .ok "" ∧ parseJoin (some []) = .ok "")
    ∧ (∀ (arr : List DslJoin) parts, arr ≠ [] → arr.mapM joinPart = .ok parts →
        parseJoin (some arr) = .ok (String.intercalate " " parts))
    ∧ (∀ target l r ql qr, validateIdentifier target "join target table" = .ok () →
        l.isEmpty = false → r.isEmpty = false →
        quoteField l = .ok ql → quoteField r = .ok qr →
        joinPart ⟨none, target, some ⟨some l, some r, none⟩⟩ =
          .ok ("LEFT" ++ " JOIN " ++ ("`" ++ target ++ "`") ++ " ON " ++ ql ++ " = " ++ qr))
    ∧ (∀ t, t ∈ (["LEFT", "INNER", "RIGHT", "FULL"] : List String) →
        ∀ target l r op ql qr, validateIdentifier target "join target table" = .ok () →
        l.isEmpty = false → r.isEmpty = false → op.isEmpty = false →
        quoteField l = .ok ql → quoteField r = .ok qr →
        joinPart ⟨some t, target, some ⟨some l, some r, some op⟩⟩ =
          .ok (t ++ " JOIN " ++ ("`" ++ target ++ "`") ++ " ON " ++ ql ++ " " ++ op ++ " " ++ qr))
    ∧ (∀ ty target, validateIdentifier target "join target table" = .ok () →
        joinPart ⟨ty, target, none⟩ =
          .error (.validation ("Invalid JOIN definition for target " ++ target ++
            ": \x27on\x27 clause is missing.")))
    ∧ (∀ ty target r opv, validateIdentifier target "join target table" = .ok () →
        joinPart ⟨ty, target, some ⟨none, r, opv⟩⟩ =
          .error (.validation ("Invalid JOIN definition for target " ++ target ++
            ": \x27on\x27 clause is missing.")))
    ∧ (∀ ty target l opv, validateIdentifier target "join target table" = .ok () →
        l.isEmpty = false →
        joinPart ⟨ty, target, some ⟨some l, none, opv⟩⟩ =
          .error (.validation ("Invalid JOIN definition for target " ++ target ++
            ": \x27on\x27 clause is missing."))) := by
  refine ⟨⟨rfl, rfl⟩, ?_, ?_, ?_, ?_, ?_, ?_⟩
  · intro arr parts hne hparts
    simp only [parseJoin]
    rw [if_neg (by simpa [List.isEmpty_iff] using hne), hparts]
    rfl
  · intro target l r ql qr hv hl hr hql hqr
    simp only [joinPart, hv, except_ok_bind, strFalsy, hl, hr, Bool.or_self,
      Bool.false_eq_true, if_false, Option.getD_some, hql, hqr]
    rw [append_op_default]
    rfl
  · intro t ht target l r op ql qr hv hl hr hop hql hqr
    have htup : (if t.isEmpty then "LEFT" else strToUpper t) = t := by
      fin_cases ht <;> rfl
    simp only [joinPart, hv, except_ok_bind, strFalsy, hl, hr, Bool.or_self,
      Bool.false_eq_true, if_false, Option.getD_some, hql, hqr, htup, hop]
    rfl
  · intro ty target hv
    simp only [joinPart, hv, except_ok_bind]
  · intro ty target r opv hv
    simp only [joinPart, hv, except_ok_bind, strFalsy, Bool.true_or, if_true]
  · intro ty target l opv hv hl
    simp only [joinPart, hv, except_ok_bind, strFalsy, hl, Bool.false_or, Bool.true_or,
      if_true]

/-- Witness for C8: two descriptors lower in input order joined by a space,
with the LEFT default on the first and an explicit INNER type and operator
on the second; a descriptor with no `on` clause fails validation. -/
theorem c8_join_lowering_witness :
    parseJoin (some [⟨none, "users", some ⟨some "posts.user_id", some "users.id", none⟩⟩,
                     ⟨some "INNER", "orgs", some ⟨some "users.org_id", some "orgs.id", some ">="⟩⟩]) =
      .ok ("LEFT JOIN `users` ON `posts`.`user_id` = `users`.`id` INNER JOIN `orgs` ON `users`.`org_id` >= `orgs`.`id`")
    ∧ joinPart ⟨none, "users", none⟩ =
        .error (.validation "Invalid JOIN definition for target users: \x27on\x27 clause is missing.") :=
  ⟨(c8_join_lowering).2.1
      [⟨none, "users", some ⟨some "posts.user_id", some "users.id", none⟩⟩,
       ⟨some "INNER", "orgs", some ⟨some "users.org_id", some "orgs.id", some ">="⟩⟩]
      ["LEFT JOIN `users` ON `posts`.`user_id` = `users`.`id`",
       "INNER JOIN `orgs` ON `users`.`org_id` >= `orgs`.`id`"]
      (by simp) (by decide),
   (c8_join_lowering).2.2.2.2.1 none "users" (by decide)⟩

/-- A metric entry whose contribution is empty can be deleted from the
metric map without changing the metric half of the projection. -/
theorem aggMetricSelects_drop {a : String} {op : List (String × String)}
    (ms₁ ms₂ : List (String × List (String × String)))
    (h : metricSelect a op = .ok []) :
    aggMetricSelects (some (ms₁ ++ (a, op) :: ms₂)) =
      aggMetricSelects (some (ms₁ ++ ms₂)) := by
  simp only [aggMetricSelects]
  rw [List.mapM_append, List.mapM_append]
  cases h1 : ms₁.mapM (fun m => metricSelect m.1 m.2) with
  | error e => rfl
  | ok as =>
    simp only [except_ok_bind]
    rw [List.mapM_cons, h]
    simp only [except_ok_bind]
    cases h2 : ms₂.mapM (fun m => metricSelect m.1 m.2) with
    | error e => rfl
    | ok ys =>
      simp only [except_ok_bind]
      simp [List.flatten_append, List.flatten_cons]

/-- C9: a metric entry with an unsupported operator key contributes nothing
to the projection — its alias must still validate, and the whole entry can
be deleted from the request without changing the assembled statement — an
invalid alias propagates its validation error even for an unsupported
operator, and a request whose projection ends up empty (no group_by fields
and no supported metric) is rejected with a validation failure for every
backend, i.e. before execution. -/
theorem c9_aggregate_metrics :
    (∀ alias1 opKey fieldv tl, validateIdentifier alias1 "metric alias" = .ok () →
        supportedOps.contains opKey = false →
        metricSelect alias1 ((opKey, fieldv) :: tl) = .ok [])
    ∧ (∀ alias1 operation e, validateIdentifier alias1 "metric alias" = .error e →
        metricSelect alias1 operation = .error e)
    ∧ (∀ (table : String) (q : DslQuery) gb ms₁ ms₂ alias1 opKey fieldv tl,
        validateIdentifier alias1 "metric alias" = .ok () →
        supportedOps.contains opKey = false →
        aggregateStatement table
          { q with aggs := some ⟨gb, some (ms₁ ++ (alias1, (opKey, fieldv) :: tl) :: ms₂)⟩ } =
        aggregateStatement table { q with aggs := some ⟨gb, some (ms₁ ++ ms₂)⟩ })
    ∧ (∀ (table : String) (q : DslQuery) (ag : Aggs), q.aggs = some ag →
        table.isEmpty = false → validateIdentifier table "table name" = .ok () →
        (ag.group_by = none ∨ ag.group_by = some []) →
        aggMetricSelects ag.metrics = .ok [] →
        ∀ js, parseJoin q.join = .ok js → ∀ w, parseWhere q = .ok w →
        ∀ {α : Type} (exec : String → List SqlValue → Except String (List α)),
          aggregate exec table q =
            .error (.validation "Aggregation must define \"group_by\" or \"metrics\".")) := by
  refine ⟨?_, ?_, ?_, ?_⟩
  · intro alias1 opKey fieldv tl hva hop
    simp only [metricSelect, hva, except_ok_bind, List.head?_cons, hop,
      Bool.false_eq_true, if_false]
    rfl
  · intro alias1 operation e he
    simp only [metricSelect, he]
    rfl
  · intro table q gb ms₁ ms₂ alias1 opKey fieldv tl hva hop
    have hms : metricSelect alias1 ((opKey, fieldv) :: tl) = .ok [] := by
      simp only [metricSelect, hva, except_ok_bind, List.head?_cons, hop,
        Bool.false_eq_true, if_false]
      rfl
    simp only [aggregateStatement, parseWhere]
    rw [aggMetricSelects_drop ms₁ ms₂ hms]
  · intro table q ag hq ht hv hgb hm js hjs w hw α exec
    have hstmt : aggregateStatement table q =
        .error (.validation "Aggregation must define \"group_by\" or \"metrics\".") := by
      simp only [aggregateStatement, hq, ht, Bool.false_eq_true, if_false, hv,
        except_ok_bind, hjs, hw]
      rcases hgb with hgb | hgb
      · simp only [hgb, hm, except_ok_bind]
        rfl
      · simp only [hgb, hm, List.mapM_nil, except_ok_bind]
        rfl
    simp only [aggregate, hstmt]

/-- Witness for C9: a `median` metric is dropped (its alias validates), and
a request with only that metric and no group_by is rejected before any
backend call. -/
theorem c9_aggregate_metrics_witness :
    metricSelect "cnt" [("median", "age")] = .ok []
    ∧ aggregate (α := Nat) (fun _ _ => .ok [1]) "users"
        { emptyDslQuery with aggs := some ⟨none, some [("cnt", [("median", "age")])]⟩ } =
        .error (.validation "Aggregation must define \"group_by\" or \"metrics\".") :=
  ⟨c9_aggregate_metrics.1 "cnt" "median" "age" [] (by decide) (by decide),
   c9_aggregate_metrics.2.2.2 "users"
      { emptyDslQuery with aggs := some ⟨none, some [("cnt", [("median", "age")])]⟩ }
      ⟨none, some [("cnt", [("median", "age")])]⟩ rfl (by decide) (by decide)
      (Or.inl rfl) (by decide) "" (by decide) ⟨"1=1", []⟩ (by decide)
      (fun _ _ => .ok [1])⟩

/-- C10: the LIMIT/OFFSET defaults of search are applied by JS falsiness —
`size: 0` assembles the very same statement as `size: 10` (and as an absent
size), so a zero-row page cannot be requested; a `from` of 0 behaves as an
absent `from`; and on success the bound parameter list is the clause
parameters followed by exactly `[size-or-10, from-or-0]`. -/
theorem c10_search_pagination_falsy (table : String) (q : DslQuery) :
    searchStatement table { q with size := some 0 } =
      searchStatement table { q with size := some 10 }
    ∧ searchStatement table { q with size := some 0 } =
        searchStatement table { q with size := none }
    ∧ searchStatement table { q with fromIdx := some 0 } =
        searchStatement table { q with fromIdx := none }
    ∧ (∀ w, parseWhere q = .ok w → ∀ s ps, searchStatement table q = .ok (s, ps) →
        ps = w.params ++ [SqlValue.int (match q.size with
                            | some n => if n = 0 then 10 else n
                            | none => 10),
                          SqlValue.int (match q.fromIdx with
                            | some n => if n = 0 then 0 else n
                            | none => 0)]) := by
  refine ⟨?_, ?_, ?_, ?_⟩
  · simp [searchStatement, parseWhere]
  · simp [searchStatement, parseWhere]
  · simp [searchStatement, parseWhere]
  · intro w hw s ps h
    cases hte : table.isEmpty with
    | true =>
      simp only [searchStatement, hte, if_true] at h
      exact absurd h (by simp)
    | false =>
      simp only [searchStatement, hte, Bool.false_eq_true, if_false] at h
      obtain ⟨u, hu, h⟩ := (except_bind_ok_iff _ _ _).mp h
      obtain ⟨js, hjs, h⟩ := (except_bind_ok_iff _ _ _).mp h
      obtain ⟨sel, hsel, h⟩ := (except_bind_ok_iff _ _ _).mp h
      obtain ⟨w', hw', h⟩ := (except_bind_ok_iff _ _ _).mp h
      rw [hw] at hw'
      injection hw' with hw'
      subst hw'
      cases hsort : q.sort with
      | some sl =>
        rw [hsort] at h
        obtain ⟨ob, hob, h⟩ := (except_bind_ok_iff _ _ _).mp h
        injection h with h
        injection h with h1 h2
        rw [← h2, List.append_assoc]
        rfl
      | none =>
        rw [hsort] at h
        obtain ⟨ob, hob, h⟩ := (except_bind_ok_iff _ _ _).mp h
        injection h with h
        injection h with h1 h2
        rw [← h2, List.append_assoc]
        rfl

/-- Witness for C10: with `size: 0` and `from: 7` the assembled statement
equals the `size: 10` one and its parameters end in `[10, 7]`. -/
theorem c10_search_pagination_falsy_witness :
    searchStatement "users" { emptyDslQuery with size := some 0, fromIdx := some 7 } =
      searchStatement "users" { emptyDslQuery with size := some 10, fromIdx := some 7 }
    ∧ ([SqlValue.int 10, SqlValue.int 7] : List SqlValue) =
        (⟨"1=1", []⟩ : SqlResult).params ++ [SqlValue.int 10, SqlValue.int 7] :=
  ⟨(c10_search_pagination_falsy "users" { emptyDslQuery with fromIdx := some 7 }).1,
   (c10_search_pagination_falsy "users" { emptyDslQuery with size := some 0, fromIdx := some 7 }).2.2.2
      ⟨"1=1", []⟩ (by decide)
      "SELECT * FROM `users`  WHERE 1=1  LIMIT ? OFFSET ?" [SqlValue.int 10, SqlValue.int 7]
      (by decide)⟩
